import Mathlib

/-!
Verification of the PDF chatbot (`google_pdf_chatbot.py`).

The development shallowly embeds the program's logic:

* the rate limiter (`wait_for_rate_limit`, lines 81-121) over states with
  rational-valued wall-clock time (`time.time()` returns a real-valued
  timestamp; sleeps advance the clock by exactly the requested amount);
* the relevance selector (`find_relevant_chunk`, lines 123-147) over
  strings viewed as their character lists;
* the quota-error handler (`handle_quota_error`, lines 149-168), with the
  regular expression `retry_delay\s*\x7b\s*seconds:\s*(\d+)` modelled as an
  explicit leftmost-match scanner;
* the retry loop (`ask_question`, lines 170-219), with the remote send
  operation abstracted as an environment mapping each attempt index and
  prompt to an outcome.

Python's `int()` on a float truncates toward zero; it is modelled by
`pyint` on ℚ.
-/

/-- Python `int()` on a real value: truncation toward zero. -/
def pyint (q : ℚ) : ℤ := if 0 ≤ q then Int.floor q else Int.ceil q

theorem pyint_of_nonneg {q : ℚ} (h : 0 ≤ q) : pyint q = Int.floor q := if_pos h

/-- The mutable rate-limiter fields of `GooglePDFChatbot`, together with the
current wall-clock time `now` (the value `time.time()` would return).
`min_request_interval` is the constant 4 (line 18). -/
structure RL where
  now : ℚ
  last_request_time : ℚ
  requests_in_last_minute : ℕ
  last_minute_start : ℚ
  next_available_time : ℚ
deriving DecidableEq

/-- `self.min_request_interval = 4` (line 18). -/
def minRequestInterval : ℚ := 4

/-- Lines 85-88: if at least 60 seconds have elapsed since the window start,
reset the per-minute window. `current_time` is the timestamp captured at
line 83. -/
def minuteCheck (current_time : ℚ) (s : RL) : RL :=
  if current_time - s.last_minute_start ≥ 60 then
    { s with requests_in_last_minute := 0, last_minute_start := current_time }
  else s

/-- Lines 90-103: if the per-minute count has reached 15, sleep for the
remainder of the 60-second window (computed from the stale `current_time`),
then reset the window with the post-sleep clock as its start. -/
def capBlock (current_time : ℚ) (s : RL) : RL :=
  if s.requests_in_last_minute ≥ 15 then
    let wait_time := 60 - (current_time - s.last_minute_start)
    if wait_time > 0 then
      { s with now := s.now + wait_time,
               requests_in_last_minute := 0,
               last_minute_start := s.now + wait_time }
    else s
  else s

/-- Lines 105-117: if less than the minimum interval has passed since the
last request (both timestamps stale: `current_time` from line 83 and
`last_request_time` from before this call), sleep for
`int(min_request_interval - time_since_last_request)` seconds. -/
def interBlock (current_time last0 : ℚ) (s : RL) : RL :=
  let time_since_last_request := current_time - last0
  if time_since_last_request < minRequestInterval then
    let wait_time : ℚ := (pyint (minRequestInterval - time_since_last_request) : ℤ)
    { s with now := s.now + wait_time }
  else s

/-- `GooglePDFChatbot.wait_for_rate_limit` (lines 81-121): the three blocks
in order, then record the request (lines 119-121). -/
def wait_for_rate_limit (s : RL) : RL :=
  let current_time := s.now
  let s1 := minuteCheck current_time s
  let s2 := capBlock current_time s1
  let s3 := interBlock current_time s.last_request_time s2
  { s3 with last_request_time := s3.now,
            requests_in_last_minute := s3.requests_in_last_minute + 1,
            next_available_time := s3.now + minRequestInterval }

/-- The rate-limiter fields set by `__init__` (lines 17-22) when the object
is created at wall-clock time `t0`: `last_request_time = 0`, zero requests,
`last_minute_start = time.time()`, `next_available_time = 0`. -/
def initState (t0 : ℚ) : RL :=
  { now := t0, last_request_time := 0, requests_in_last_minute := 0,
    last_minute_start := t0, next_available_time := 0 }

/-- `n` back-to-back calls of `wait_for_rate_limit` (no artificial delay:
each call starts at the instant the previous one returned). -/
def issueRequests : ℕ → RL → RL
  | 0, s => s
  | n + 1, s => wait_for_rate_limit (issueRequests n s)

/-- Python ASCII whitespace, the separator set of `str.split()` with no
argument and of the regex class `\s` (all inputs of interest are ASCII):
space, tab, newline, carriage return, vertical tab, form feed. -/
def isPySpace (c : Char) : Bool :=
  c = ' ' || c = '\t' || c = '\n' || c = '\r' ||
    c = Char.ofNat 11 || c = Char.ofNat 12

/-- `str.lower()` over the characters of a string (ASCII case mapping). -/
def toLowerL (s : List Char) : List Char := s.map Char.toLower

/-- Helper for `splitWs`: accumulates the current (reversed) token. -/
def splitWsAux : List Char → List Char → List (List Char)
  | [], acc => if acc.isEmpty then [] else [acc.reverse]
  | c :: cs, acc =>
    if isPySpace c then
      if acc.isEmpty then splitWsAux cs []
      else acc.reverse :: splitWsAux cs []
    else splitWsAux cs (c :: acc)

/-- `str.split()` with no separator: split on runs of whitespace, dropping
empty pieces. -/
def splitWs (s : List Char) : List (List Char) := splitWsAux s []

/-- `needle` is a prefix of `hay` (character lists). -/
def startsWithL : List Char → List Char → Bool
  | [], _ => true
  | _ :: _, [] => false
  | a :: as, b :: bs => a = b && startsWithL as bs

/-- Python's `needle in hay` substring containment on character lists. -/
def containsSub : List Char → List Char → Bool
  | [], needle => needle.isEmpty
  | c :: cs, needle => startsWithL needle (c :: cs) || containsSub cs needle

/-- Lines 126-127: the keywords of a question — whitespace-delimited tokens
of the lowercased question that are longer than 3 characters. -/
def keywordsOf (question : String) : List (List Char) :=
  (splitWs (toLowerL question.data)).filter (fun word => word.length > 3)

/-- Lines 134-140: a chunk's score — how many of the keywords occur in the
lowercased chunk. -/
def chunkScore (keywords : List (List Char)) (chunk : String) : ℕ :=
  (keywords.filter (fun keyword => containsSub (toLowerL chunk.data) keyword)).length

/-- Lines 133-145: the scan over all chunks keeping the best one; only a
strictly greater score replaces the current best. -/
def scanBest (keywords : List (List Char)) :
    List String → String × ℕ → String × ℕ
  | [], acc => acc
  | chunk :: rest, (best_chunk, best_score) =>
    let score := chunkScore keywords chunk
    if score > best_score then scanBest keywords rest (chunk, score)
    else scanBest keywords rest (best_chunk, best_score)

/-- `GooglePDFChatbot.find_relevant_chunk` (lines 123-147), starting from
`best_chunk = self.text_chunks[0]`, `best_score = 0`.  The Python code reads
`self.text_chunks[0]` unconditionally and would raise `IndexError` on an
empty list; that case is `none`. -/
def find_relevant_chunk (chunks : List String) (question : String) :
    Option String :=
  match chunks with
  | [] => none
  | c0 :: _ => some (scanBest (keywordsOf question) chunks (c0, 0)).1

/-- A chunk contains every keyword of the question as a case-insensitive
substring. -/
def containsAllKeywords (question chunk : String) : Bool :=
  (keywordsOf question).all (fun keyword => containsSub (toLowerL chunk.data) keyword)

/-- Strip a literal pattern from the front of a character list, returning
the remainder on success. -/
def stripLit : List Char → List Char → Option (List Char)
  | [], s => some s
  | _ :: _, [] => none
  | a :: as, b :: bs => if a = b then stripLit as bs else none

/-- The numeric value of a digit run (the `int(...)` of the captured
group `(\d+)`). -/
def digitsToNat (ds : List Char) : ℕ :=
  ds.foldl (fun n c => 10 * n + (c.toNat - 48)) 0

/-- One anchored match of the regex
`retry_delay\s*\x7b\s*seconds:\s*(\d+)` (line 154) at the head of `s`:
the literal `retry_delay`, optional whitespace, a literal opening brace,
optional whitespace, the literal `seconds:`, optional whitespace, then a
maximal non-empty digit run whose value is returned.  (`\s*` before a
non-whitespace literal and the final greedy `\d+` need no backtracking, so
maximal munch is exact.) -/
def matchRetryAt (s : List Char) : Option ℕ :=
  match stripLit ("retry_delay".data) s with
  | none => none
  | some s1 =>
    match s1.dropWhile isPySpace with
    | [] => none
    | c :: s2 =>
      if c = Char.ofNat 123 then
        match stripLit ("seconds:".data) (s2.dropWhile isPySpace) with
        | none => none
        | some s3 =>
          let s4 := s3.dropWhile isPySpace
          let ds := s4.takeWhile Char.isDigit
          if ds.isEmpty then none else some (digitsToNat ds)
      else none

/-- `re.search` for the pattern of line 154: the match at the leftmost
starting position, if any. -/
def searchRetry : List Char → Option ℕ
  | [] => none
  | c :: cs =>
    match matchRetryAt (c :: cs) with
    | some n => some n
    | none => searchRetry cs

/-- Result of `handle_quota_error`: whether it signalled retry (its return
value) and how many seconds it slept before returning. -/
structure QuotaHandled where
  signalsRetry : Bool
  waited : ℕ
deriving DecidableEq

/-- `GooglePDFChatbot.handle_quota_error` (lines 149-168): extract the
suggested delay with the regex; on success sleep that many seconds and
return `True`, otherwise return `False` (the `except: pass` path cannot
trigger: the regex and `int()` cannot fail here). -/
def handle_quota_error (error_message : String) : QuotaHandled :=
  match searchRetry error_message.data with
  | some wait_time => { signalsRetry := true, waited := wait_time }
  | none => { signalsRetry := false, waited := 0 }

/-- Line 210: `"quota" in error_message.lower()`. -/
def containsQuota (error_message : String) : Bool :=
  containsSub (toLowerL error_message.data) ("quota".data)

/-- Line 176: the fixed initialization-error answer. -/
def initErrorMsg : String :=
  "Chatbot düzgün başlatılamadı. Lütfen kurulumu kontrol edin."

/-- Line 219: the fixed answer after exhausting all retries. -/
def maxRetriesMsg : String :=
  "Maksimum deneme sayısına ulaşıldı. Lütfen daha sonra tekrar deneyin."

/-- Line 217: `f"Hata oluştu: \x7berror_message\x7d"`. -/
def errorResultMsg (error_message : String) : String :=
  "Hata oluştu: " ++ error_message

/-- Lines 185-192: the composed prompt around the selected chunk and the
question. -/
def buildPrompt (relevant_chunk question : String) : String :=
  "Aşağıdaki metin bir PDF dosyasından alınmıştır. Lütfen bu metne dayanarak soruyu yanıtlayın.\n\nPDF İçeriği:\n"
    ++ relevant_chunk ++ "\n\nSoru: " ++ question ++
    "\n\nLütfen cevabınızı Türkçe olarak verin ve mümkün olduğunca kısa ve öz tutun. Sadece sorunun cevabına odaklanın, gereksiz detaylardan kaçının. Maksimum 2-3 cümle ile cevaplayın."

/-- Outcome of one `self.chat.send_message(prompt)` call (line 195): either
the reply text or the `str(e)` of the raised exception. -/
inductive SendOutcome where
  | ok (reply : String)
  | err (message : String)

/-- The two fields of `GooglePDFChatbot` that the guard on line 175 reads:
the loaded chunks and whether `self.model` is set. -/
structure Chatbot where
  text_chunks : List String
  modelSet : Bool

/-- Result of `ask_question`: the returned answer, the rate-limiter state
left behind, and how many send attempts were made. -/
structure AskResult where
  answer : String
  rl : RL
  sends : ℕ

/-- The `while retry_count < max_retries` loop of `ask_question`
(lines 172-219), with `retriesLeft = max_retries - retry_count` and `k`
the number of send attempts made so far.  `send` abstracts the remote
chat: the outcome of the `k`-th send of the given prompt.  One iteration:
the initialization guard (line 175), the rate-limit wait (line 179), chunk
selection and prompt construction (lines 182-192), the send (line 195);
on an exception whose message contains "quota" (line 210) and for which
`handle_quota_error` signals retry, increment `retry_count` and loop
(lines 211-214); otherwise return `"Hata oluştu: ..."` (line 217).
Falling out of the loop returns the max-retries message (line 219). -/
def ask_loop (cb : Chatbot) (send : ℕ → String → SendOutcome)
    (question : String) : ℕ → RL → ℕ → AskResult
  | 0, rl, k => { answer := maxRetriesMsg, rl := rl, sends := k }
  | retriesLeft + 1, rl, k =>
    if cb.text_chunks.isEmpty || !cb.modelSet then
      { answer := initErrorMsg, rl := rl, sends := k }
    else
      let rl1 := wait_for_rate_limit rl
      let relevant_chunk := (find_relevant_chunk cb.text_chunks question).getD ""
      let prompt := buildPrompt relevant_chunk question
      match send k prompt with
      | SendOutcome.ok reply => { answer := reply, rl := rl1, sends := k + 1 }
      | SendOutcome.err error_message =>
        if containsQuota error_message then
          let handled := handle_quota_error error_message
          if handled.signalsRetry then
            ask_loop cb send question retriesLeft
              { rl1 with now := rl1.now + (handled.waited : ℚ) } (k + 1)
          else { answer := errorResultMsg error_message, rl := rl1, sends := k + 1 }
        else { answer := errorResultMsg error_message, rl := rl1, sends := k + 1 }

/-- `GooglePDFChatbot.ask_question` (lines 170-219) with the default
`max_retries = 3`, from rate-limiter state `rl`. -/
def ask_question (cb : Chatbot) (send : ℕ → String → SendOutcome)
    (question : String) (rl : RL) : AskResult :=
  ask_loop cb send question 3 rl 0

-- Basic facts about the three blocks.

theorem minuteCheck_now (ct : ℚ) (s : RL) : (minuteCheck ct s).now = s.now := by
  unfold minuteCheck; split <;> rfl

theorem minuteCheck_last (ct : ℚ) (s : RL) :
    (minuteCheck ct s).last_request_time = s.last_request_time := by
  unfold minuteCheck; split <;> rfl

theorem capBlock_now_ge (ct : ℚ) (s : RL) : s.now ≤ (capBlock ct s).now := by
  unfold capBlock
  dsimp only
  split
  · split
    · rename_i h1 h2
      dsimp only
      linarith
    · exact le_refl _
  · exact le_refl _

theorem capBlock_last (ct : ℚ) (s : RL) :
    (capBlock ct s).last_request_time = s.last_request_time := by
  unfold capBlock
  dsimp only
  split
  · split <;> rfl
  · rfl

theorem wait_for_rate_limit_last (s : RL) :
    (wait_for_rate_limit s).last_request_time =
      (interBlock s.now s.last_request_time
        (capBlock s.now (minuteCheck s.now s))).now := rfl

theorem pyint_four : pyint 4 = 4 := by
  rw [pyint_of_nonneg (by norm_num)]
  rw [show ((4 : ℚ)) = ((4 : ℤ) : ℚ) by norm_num, Int.floor_intCast]

/-- A request finding the window open, the cap unreached, and at least the
minimum interval since the last request: admitted with no wait. -/
theorem wfr_step_free (s : RL) (h1 : s.now - s.last_minute_start < 60)
    (h2 : s.requests_in_last_minute < 15)
    (h3 : minRequestInterval ≤ s.now - s.last_request_time) :
    wait_for_rate_limit s =
      { now := s.now, last_request_time := s.now,
        requests_in_last_minute := s.requests_in_last_minute + 1,
        last_minute_start := s.last_minute_start,
        next_available_time := s.now + minRequestInterval } := by
  have c1 : ¬(s.now - s.last_minute_start ≥ 60) := by linarith
  have c2 : ¬(s.requests_in_last_minute ≥ 15) := by omega
  have c3 : ¬(s.now - s.last_request_time < minRequestInterval) := not_lt.mpr h3
  unfold wait_for_rate_limit minuteCheck capBlock interBlock
  dsimp only
  rw [if_neg c1, if_neg c2, if_neg c3]

/-- A request issued at the very instant the previous one was recorded
(zero elapsed time), window open, cap unreached: delayed by exactly 4
seconds. -/
theorem wfr_step_backToBack (s : RL) (h1 : s.now - s.last_minute_start < 60)
    (h2 : s.requests_in_last_minute < 15) (h3 : s.last_request_time = s.now) :
    wait_for_rate_limit s =
      { now := s.now + 4, last_request_time := s.now + 4,
        requests_in_last_minute := s.requests_in_last_minute + 1,
        last_minute_start := s.last_minute_start,
        next_available_time := s.now + 8 } := by
  have c1 : ¬(s.now - s.last_minute_start ≥ 60) := by linarith
  have c2 : ¬(s.requests_in_last_minute ≥ 15) := by omega
  have c3 : s.now - s.last_request_time < minRequestInterval := by
    rw [h3, sub_self, minRequestInterval]; norm_num
  have c4 : pyint (minRequestInterval - (s.now - s.last_request_time)) = 4 := by
    rw [h3, sub_self, sub_zero, minRequestInterval, pyint_four]
  unfold wait_for_rate_limit minuteCheck capBlock interBlock
  dsimp only
  rw [if_neg c1, if_neg c2, if_pos c3, c4]
  simp only [RL.mk.injEq, minRequestInterval]
  and_intros <;> first | rfl | trivial | (push_cast; ring)

/-- A request finding the cap reached with the window still open: it sleeps
for the remainder of the window, the window is reset with the post-sleep
clock as its start, and the stale inter-request check adds 4 more seconds. -/
theorem wfr_step_cap (s : RL) (h1 : s.now - s.last_minute_start < 60)
    (h2 : 15 ≤ s.requests_in_last_minute) (h3 : s.last_request_time = s.now) :
    wait_for_rate_limit s =
      { now := s.last_minute_start + 64,
        last_request_time := s.last_minute_start + 64,
        requests_in_last_minute := 1,
        last_minute_start := s.last_minute_start + 60,
        next_available_time := s.last_minute_start + 68 } := by
  have c1 : ¬(s.now - s.last_minute_start ≥ 60) := by linarith
  have c2 : (60 : ℚ) - (s.now - s.last_minute_start) > 0 := by linarith
  have c3 : s.now - s.last_request_time < minRequestInterval := by
    rw [h3, sub_self, minRequestInterval]; norm_num
  have c4 : pyint (minRequestInterval - (s.now - s.last_request_time)) = 4 := by
    rw [h3, sub_self, sub_zero, minRequestInterval, pyint_four]
  unfold wait_for_rate_limit minuteCheck capBlock interBlock
  dsimp only
  rw [if_neg c1, if_pos h2, if_pos c2, if_pos c3, c4]
  simp only [RL.mk.injEq, minRequestInterval]
  and_intros <;> first | rfl | trivial | (push_cast; ring)

/-- Back-to-back requests 1 through 15 from a fresh chatbot: request `k+1`
is issued at `t0 + 4*k`, all inside the first 60-second window. -/
theorem issue_trace (t0 : ℚ) (h : 4 ≤ t0) :
    ∀ k : ℕ, k ≤ 14 → issueRequests (k + 1) (initState t0) =
      { now := t0 + 4 * k, last_request_time := t0 + 4 * k,
        requests_in_last_minute := k + 1, last_minute_start := t0,
        next_available_time := t0 + 4 * k + 4 } := by
  intro k
  induction k with
  | zero =>
    intro _
    show wait_for_rate_limit (initState t0) = _
    rw [wfr_step_free (initState t0) (by norm_num [initState]) (by norm_num [initState])
      (by simp only [initState, minRequestInterval, sub_zero]; linarith)]
    simp only [initState, minRequestInterval, RL.mk.injEq]
    and_intros <;> first | rfl | trivial | (push_cast; ring)
  | succ n ih =>
    intro hn
    have hn13 : n ≤ 13 := by omega
    have hq : (n : ℚ) ≤ 13 := by exact_mod_cast hn13
    show wait_for_rate_limit (issueRequests (n + 1) (initState t0)) = _
    rw [ih (by omega)]
    rw [wfr_step_backToBack _ (by dsimp only; linarith) (by dsimp only; omega)
      (by dsimp only)]
    simp only [RL.mk.injEq]
    and_intros <;> first | rfl | trivial | omega | (push_cast; ring)

/-- C1 (amended): between two consecutive admitted requests, the elapsed
time between the recorded request timestamps is strictly greater than the
minimum interval minus one second (the wait is `int(4 - elapsed)`, an
integer truncation); and for two consecutive requests issued with zero
elapsed time the full minimum interval holds, so the second is delayed by
at least 4 seconds minus the (zero) elapsed time. -/
theorem rate_limit_min_interval (s : RL) (h : s.last_request_time ≤ s.now) :
    minRequestInterval - 1 <
      (wait_for_rate_limit s).last_request_time - s.last_request_time ∧
    (s.now = s.last_request_time →
      minRequestInterval ≤
        (wait_for_rate_limit s).last_request_time - s.last_request_time) := by
  have hnow2 : s.now ≤ (capBlock s.now (minuteCheck s.now s)).now := by
    calc s.now = (minuteCheck s.now s).now := (minuteCheck_now s.now s).symm
      _ ≤ (capBlock s.now (minuteCheck s.now s)).now := capBlock_now_ge _ _
  rw [wait_for_rate_limit_last]
  unfold interBlock
  dsimp only
  by_cases hc : s.now - s.last_request_time < minRequestInterval
  · rw [if_pos hc]
    have hge : (0 : ℚ) ≤ minRequestInterval - (s.now - s.last_request_time) := by
      linarith
    rw [pyint_of_nonneg hge]
    have hfl := Int.sub_one_lt_floor (minRequestInterval - (s.now - s.last_request_time))
    constructor
    · dsimp only
      linarith
    · intro h0
      have e : minRequestInterval - (s.now - s.last_request_time) = 4 := by
        rw [h0, sub_self, sub_zero, minRequestInterval]
      rw [e, show ((4 : ℚ)) = ((4 : ℤ) : ℚ) by norm_num, Int.floor_intCast]
      dsimp only
      rw [minRequestInterval]
      push_cast
      linarith
  · rw [if_neg hc]
    push_neg at hc
    constructor
    · linarith
    · intro h0
      linarith

/-- C1 witness: a state with the previous request recorded at time 100 and
the clock also at 100 (zero elapsed time). -/
theorem rate_limit_min_interval_witness :
    (RL.mk 100 100 1 100 0).last_request_time ≤ (RL.mk 100 100 1 100 0).now ∧
    (minRequestInterval - 1 <
      (wait_for_rate_limit (RL.mk 100 100 1 100 0)).last_request_time -
        (RL.mk 100 100 1 100 0).last_request_time ∧
    ((RL.mk 100 100 1 100 0).now = (RL.mk 100 100 1 100 0).last_request_time →
      minRequestInterval ≤
        (wait_for_rate_limit (RL.mk 100 100 1 100 0)).last_request_time -
          (RL.mk 100 100 1 100 0).last_request_time)) :=
  ⟨le_refl _, rate_limit_min_interval (RL.mk 100 100 1 100 0) (le_refl _)⟩

/-- C1 counterexample: previous request recorded at time 10, next call made
at time 10.5 (elapsed 0.5 s).  The code waits `int(4 - 0.5) = 3` seconds, so
the new request is recorded at 13.5, only 3.5 s after the previous one —
less than the configured minimum interval, contradicting the claim that the
elapsed time is always at least 4 seconds. -/
theorem rate_limit_min_interval_cex :
    (wait_for_rate_limit (RL.mk (21/2) 10 1 10 0)).last_request_time -
      (RL.mk (21/2) 10 1 10 0).last_request_time < minRequestInterval := by
  have c1 : ¬((21 : ℚ) / 2 - 10 ≥ 60) := by norm_num
  have c2 : ¬((RL.mk (21/2) 10 1 10 0).requests_in_last_minute ≥ 15) := by norm_num
  have c3 : (21 : ℚ) / 2 - 10 < minRequestInterval := by
    rw [minRequestInterval]; norm_num
  have e : pyint (minRequestInterval - ((21 : ℚ) / 2 - 10)) = 3 := by
    have h0 : (0 : ℚ) ≤ minRequestInterval - ((21 : ℚ) / 2 - 10) := by
      rw [minRequestInterval]; norm_num
    rw [pyint_of_nonneg h0, minRequestInterval, Int.floor_eq_iff]
    norm_num
  unfold wait_for_rate_limit minuteCheck capBlock interBlock
  dsimp only
  rw [if_neg c1]
  rw [if_neg c2]
  rw [if_pos c3, e]
  dsimp only
  rw [minRequestInterval]
  push_cast
  norm_num

/-- C2: sixteen back-to-back requests from a fresh chatbot created at time
`t0 ≥ 4`.  After 15 requests the window count is 15 and the window (started
at `t0`) has not elapsed; the 16th call is blocked until the remainder of
the 60-second window has passed (it is recorded no earlier than `t0 + 60`,
in fact at `t0 + 64` after the stale inter-request wait), and the window is
reset: count restarts at 0 (1 after this request is counted) with the
post-sleep clock `t0 + 60` as the new window start. -/
theorem rate_limit_sixteenth (t0 : ℚ) (h4 : 4 ≤ t0) :
    (issueRequests 15 (initState t0)).requests_in_last_minute = 15 ∧
    (issueRequests 15 (initState t0)).now -
      (issueRequests 15 (initState t0)).last_minute_start < 60 ∧
    (issueRequests 15 (initState t0)).last_minute_start + 60 ≤
      (issueRequests 16 (initState t0)).last_request_time ∧
    (issueRequests 16 (initState t0)).last_minute_start =
      (issueRequests 15 (initState t0)).last_minute_start + 60 ∧
    (issueRequests 16 (initState t0)).requests_in_last_minute = 1 := by
  have h15 := issue_trace t0 h4 14 (by norm_num)
  norm_num at h15
  have h16 : issueRequests 16 (initState t0) =
      wait_for_rate_limit (issueRequests 15 (initState t0)) := by
    rw [show (16 : ℕ) = 15 + 1 from rfl]
    rfl
  have e16 : issueRequests 16 (initState t0) =
      { now := t0 + 64, last_request_time := t0 + 64,
        requests_in_last_minute := 1, last_minute_start := t0 + 60,
        next_available_time := t0 + 68 } := by
    rw [h16, h15]
    rw [wfr_step_cap _ (by dsimp only; linarith) (by dsimp only; omega)
      (by dsimp only)]
  rw [h15, e16]
  dsimp only
  and_intros <;> first | rfl | trivial | linarith

/-- C2 witness: the chatbot created at time `t0 = 100`. -/
theorem rate_limit_sixteenth_witness :
    (4 : ℚ) ≤ 100 ∧
    ((issueRequests 15 (initState 100)).requests_in_last_minute = 15 ∧
    (issueRequests 15 (initState 100)).now -
      (issueRequests 15 (initState 100)).last_minute_start < 60 ∧
    (issueRequests 15 (initState 100)).last_minute_start + 60 ≤
      (issueRequests 16 (initState 100)).last_request_time ∧
    (issueRequests 16 (initState 100)).last_minute_start =
      (issueRequests 15 (initState 100)).last_minute_start + 60 ∧
    (issueRequests 16 (initState 100)).requests_in_last_minute = 1) :=
  ⟨by norm_num, rate_limit_sixteenth 100 (by norm_num)⟩

/-- C3 (amended): on every request attempt the window check resets the
window (count := 0, start := the current clock) if and only if AT LEAST 60
seconds (not: more than 60 seconds) have elapsed since the window start;
under 60 seconds the state carries over unchanged into the subsequent
checks. -/
theorem minute_window_reset_iff (s : RL) :
    (60 ≤ s.now - s.last_minute_start →
      minuteCheck s.now s =
        { s with requests_in_last_minute := 0, last_minute_start := s.now }) ∧
    (s.now - s.last_minute_start < 60 →
      minuteCheck s.now s = s) := by
  constructor
  · intro h
    unfold minuteCheck
    rw [if_pos h]
  · intro h
    unfold minuteCheck
    rw [if_neg (not_le.mpr h)]

/-- C3 witness: at 61 seconds elapsed the window resets; at 59 seconds it
carries over. -/
theorem minute_window_reset_iff_witness :
    minuteCheck (RL.mk 61 0 3 0 0).now (RL.mk 61 0 3 0 0) =
      { (RL.mk 61 0 3 0 0) with
        requests_in_last_minute := 0,
        last_minute_start := (RL.mk 61 0 3 0 0).now } ∧
    minuteCheck (RL.mk 59 0 3 0 0).now (RL.mk 59 0 3 0 0) = RL.mk 59 0 3 0 0 :=
  ⟨(minute_window_reset_iff (RL.mk 61 0 3 0 0)).1 (by norm_num),
   (minute_window_reset_iff (RL.mk 59 0 3 0 0)).2 (by norm_num)⟩

/-- C3 counterexample: with exactly 60 seconds elapsed (not MORE than 60,
as the claim requires for a reset) the code still resets the window — the
count does not carry over. -/
theorem minute_window_reset_cex :
    ¬((RL.mk 60 0 5 0 0).now - (RL.mk 60 0 5 0 0).last_minute_start > 60) ∧
    minuteCheck (RL.mk 60 0 5 0 0).now (RL.mk 60 0 5 0 0) ≠ RL.mk 60 0 5 0 0 := by
  constructor
  · norm_num
  · unfold minuteCheck
    dsimp only
    rw [if_pos (by norm_num : (60 : ℚ) - 0 ≥ 60)]
    intro hcontra
    have h5 := congrArg RL.requests_in_last_minute hcontra
    norm_num at h5

-- List facts used for the selector.

theorem filterLength_le {α : Type} (p : α → Bool) (l : List α) :
    (l.filter p).length ≤ l.length := by
  induction l with
  | nil => exact le_refl _
  | cons a t ih =>
    rw [List.filter_cons]
    by_cases h : p a = true
    · rw [if_pos h]
      exact Nat.succ_le_succ ih
    · rw [if_neg h]
      exact Nat.le_succ_of_le ih

theorem filterLength_eq_of_all {α : Type} (p : α → Bool) (l : List α)
    (h : ∀ a ∈ l, p a = true) : (l.filter p).length = l.length := by
  induction l with
  | nil => rfl
  | cons a t ih =>
    rw [List.filter_cons, if_pos (h a (List.mem_cons_self a t))]
    exact congrArg Nat.succ (ih fun x hx => h x (List.mem_cons_of_mem a hx))

theorem filterLength_lt_of_missing {α : Type} (p : α → Bool) (l : List α)
    (a : α) (ha : a ∈ l) (hpa : p a = false) :
    (l.filter p).length < l.length := by
  induction l with
  | nil => cases ha
  | cons b t ih =>
    rw [List.filter_cons]
    rcases List.mem_cons.mp ha with rfl | hat
    · rw [if_neg (by rw [hpa]; exact Bool.false_ne_true)]
      exact Nat.lt_succ_of_le (filterLength_le p t)
    · by_cases hb : p b = true
      · rw [if_pos hb]
        exact Nat.succ_lt_succ (ih hat)
      · rw [if_neg hb]
        exact Nat.lt_succ_of_lt (ih hat)

-- Facts about the best-chunk scan.

theorem scanBest_stay (kw : List (List Char)) (cs : List String) :
    ∀ (bc : String) (bs : ℕ), (∀ c ∈ cs, chunkScore kw c ≤ bs) →
      scanBest kw cs (bc, bs) = (bc, bs) := by
  induction cs with
  | nil => intro bc bs _; rfl
  | cons c rest ih =>
    intro bc bs h
    show scanBest kw (c :: rest) (bc, bs) = (bc, bs)
    simp only [scanBest]
    rw [if_neg (not_lt.mpr (h c (List.mem_cons_self c rest)))]
    exact ih bc bs fun x hx => h x (List.mem_cons_of_mem c hx)

theorem scanBest_append (kw : List (List Char)) (xs ys : List String) :
    ∀ acc : String × ℕ,
      scanBest kw (xs ++ ys) acc = scanBest kw ys (scanBest kw xs acc) := by
  induction xs with
  | nil => intro acc; rfl
  | cons c rest ih =>
    intro acc
    obtain ⟨bc, bs⟩ := acc
    rw [List.cons_append]
    show scanBest kw (c :: (rest ++ ys)) (bc, bs) = _
    simp only [scanBest]
    by_cases hlt : chunkScore kw c > bs
    · rw [if_pos hlt, if_pos hlt]
      exact ih _
    · rw [if_neg hlt, if_neg hlt]
      exact ih _

theorem scanBest_bound (kw : List (List Char)) (K : ℕ) (cs : List String) :
    ∀ (bc : String) (bs : ℕ), (∀ c ∈ cs, chunkScore kw c < K) → bs < K →
      (scanBest kw cs (bc, bs)).2 < K := by
  induction cs with
  | nil => intro bc bs _ hbs; exact hbs
  | cons c rest ih =>
    intro bc bs h hbs
    show (scanBest kw (c :: rest) (bc, bs)).2 < K
    simp only [scanBest]
    by_cases hlt : chunkScore kw c > bs
    · rw [if_pos hlt]
      exact ih c _ (fun x hx => h x (List.mem_cons_of_mem c hx))
        (h c (List.mem_cons_self c rest))
    · rw [if_neg hlt]
      exact ih bc bs (fun x hx => h x (List.mem_cons_of_mem c hx)) hbs

theorem scanBest_fst_mem (kw : List (List Char)) (cs : List String) :
    ∀ (bc : String) (bs : ℕ),
      (scanBest kw cs (bc, bs)).1 = bc ∨ (scanBest kw cs (bc, bs)).1 ∈ cs := by
  induction cs with
  | nil => intro bc bs; exact Or.inl rfl
  | cons c rest ih =>
    intro bc bs
    show (scanBest kw (c :: rest) (bc, bs)).1 = bc ∨
      (scanBest kw (c :: rest) (bc, bs)).1 ∈ c :: rest
    simp only [scanBest]
    by_cases hlt : chunkScore kw c > bs
    · rw [if_pos hlt]
      rcases ih c _ with h1 | h1
      · exact Or.inr (by rw [h1]; exact List.mem_cons_self c rest)
      · exact Or.inr (List.mem_cons_of_mem c h1)
    · rw [if_neg hlt]
      rcases ih bc bs with h1 | h1
      · exact Or.inl h1
      · exact Or.inr (List.mem_cons_of_mem c h1)

theorem chunkScore_le_card (kw : List (List Char)) (c : String) :
    chunkScore kw c ≤ kw.length := filterLength_le _ kw

theorem chunkScore_eq_card_of_all (question c : String)
    (h : containsAllKeywords question c = true) :
    chunkScore (keywordsOf question) c = (keywordsOf question).length :=
  filterLength_eq_of_all _ _ (List.all_eq_true.mp h)

theorem chunkScore_lt_card_of_not_all (question c : String)
    (h : containsAllKeywords question c = false) :
    chunkScore (keywordsOf question) c < (keywordsOf question).length := by
  have : ∃ k ∈ keywordsOf question,
      containsSub (toLowerL c.data) k = false := by
    by_contra hall
    push_neg at hall
    have : containsAllKeywords question c = true :=
      List.all_eq_true.mpr fun k hk => by
        cases hb : containsSub (toLowerL c.data) k with
        | false => exact absurd hb (hall k hk)
        | true => rfl
    rw [this] at h
    exact Bool.noConfusion h
  obtain ⟨k, hk, hpk⟩ := this
  exact filterLength_lt_of_missing _ _ k hk hpk

/-- The scan lands on the unique chunk scoring the full keyword count `K`
when everything before it scores below `K`, everything after it scores at
most `K`, and the running best is below `K`. -/
theorem scanBest_unique_hit (kw : List (List Char)) (K : ℕ)
    (l1 l2 : List String) (c : String)
    (hc : chunkScore kw c = K)
    (hlt : ∀ x ∈ l1, chunkScore kw x < K)
    (hle : ∀ x ∈ l2, chunkScore kw x ≤ K)
    (bc : String) (bs : ℕ) (hbs : bs < K) :
    (scanBest kw (l1 ++ c :: l2) (bc, bs)).1 = c := by
  rw [scanBest_append]
  rcases hp : scanBest kw l1 (bc, bs) with ⟨b1, s1⟩
  have hs1 : s1 < K := by
    have := scanBest_bound kw K l1 bc bs hlt hbs
    rw [hp] at this
    exact this
  show (scanBest kw (c :: l2) (b1, s1)).1 = c
  simp only [scanBest]
  rw [hc, if_pos hs1, scanBest_stay kw l2 c K hle]

theorem filter_eq_nil_of {α : Type} (p : α → Bool) (l : List α)
    (h : ∀ a ∈ l, p a = false) : l.filter p = [] := by
  induction l with
  | nil => rfl
  | cons a t ih =>
    have ha : p a = false := h a (List.mem_cons_self a t)
    rw [List.filter_cons, if_neg (by rw [ha]; exact Bool.false_ne_true)]
    exact ih fun x hx => h x (List.mem_cons_of_mem a hx)

/-- C4: for a non-empty chunk list and a question none of whose
whitespace-delimited lowercase tokens is longer than 3 characters, the
keyword set is empty, every chunk scores 0, and the selector returns the
first chunk. -/
theorem find_relevant_chunk_no_keywords (c : String) (rest : List String)
    (question : String)
    (h : ∀ w ∈ splitWs (toLowerL question.data), w.length ≤ 3) :
    find_relevant_chunk (c :: rest) question = some c := by
  have hkw : keywordsOf question = [] := by
    unfold keywordsOf
    exact filter_eq_nil_of _ _ fun a ha => decide_eq_false (not_lt.mpr (h a ha))
  show some (scanBest (keywordsOf question) (c :: rest) (c, 0)).1 = some c
  rw [hkw, scanBest_stay [] (c :: rest) c 0 fun x _ => le_of_eq rfl]

/-- C4 witness: every token of "a bb cc" has length at most 3; the first
of the two chunks is returned. -/
theorem find_relevant_chunk_no_keywords_witness :
    (∀ w ∈ splitWs (toLowerL ("a bb cc").data), w.length ≤ 3) ∧
    find_relevant_chunk ("alpha" :: ["beta"]) "a bb cc" = some "alpha" :=
  ⟨by decide, find_relevant_chunk_no_keywords "alpha" ["beta"] "a bb cc" (by decide)⟩

/-- C5: with a non-empty keyword set, if exactly one chunk contains all the
keywords (every other chunk misses at least one), the selector returns that
chunk wherever it sits in the list. -/
theorem find_relevant_chunk_unique_match (l1 l2 : List String)
    (c question : String)
    (hkw : keywordsOf question ≠ [])
    (hc : containsAllKeywords question c = true)
    (hothers : ∀ x ∈ l1 ++ l2, containsAllKeywords question x = false) :
    find_relevant_chunk (l1 ++ c :: l2) question = some c := by
  have hK : 0 < (keywordsOf question).length := List.length_pos.mpr hkw
  have hscore_c := chunkScore_eq_card_of_all question c hc
  have hlt : ∀ x ∈ l1,
      chunkScore (keywordsOf question) x < (keywordsOf question).length :=
    fun x hx => chunkScore_lt_card_of_not_all question x
      (hothers x (List.mem_append_left l2 hx))
  have hle : ∀ x ∈ l2,
      chunkScore (keywordsOf question) x ≤ (keywordsOf question).length :=
    fun x _ => chunkScore_le_card _ x
  cases l1 with
  | nil =>
    show some (scanBest (keywordsOf question) ([] ++ c :: l2) (c, 0)).1 = some c
    exact congrArg some
      (scanBest_unique_hit (keywordsOf question) (keywordsOf question).length
        [] l2 c hscore_c hlt hle c 0 hK)
  | cons a l1' =>
    show some (scanBest (keywordsOf question) ((a :: l1') ++ c :: l2) (a, 0)).1
      = some c
    exact congrArg some
      (scanBest_unique_hit (keywordsOf question) (keywordsOf question).length
        (a :: l1') l2 c hscore_c hlt hle a 0 hK)

/-- C5 witness: keywords of "Hello World" are "hello" and "world"; only the
middle chunk contains both. -/
theorem find_relevant_chunk_unique_match_witness :
    keywordsOf "Hello World" ≠ [] ∧
    containsAllKeywords "Hello World" "the helloworld text" = true ∧
    (∀ x ∈ (["xxxx"] ++ ["zzzz"] : List String),
      containsAllKeywords "Hello World" x = false) ∧
    find_relevant_chunk (["xxxx"] ++ "the helloworld text" :: ["zzzz"])
      "Hello World" = some "the helloworld text" :=
  ⟨by decide, by decide, by decide,
   find_relevant_chunk_unique_match ["xxxx"] ["zzzz"] "the helloworld text"
     "Hello World" (by decide) (by decide) (by decide)⟩

/-- C10: on any non-empty chunk list the selector returns (the embedding is
a total function, mirroring termination of the bounded Python loop) some
element of the list; non-emptiness is required because the code reads
`text_chunks[0]` unconditionally. -/
theorem find_relevant_chunk_total_mem (chunks : List String)
    (question : String) (h : chunks ≠ []) :
    ∃ c, find_relevant_chunk chunks question = some c ∧ c ∈ chunks := by
  cases chunks with
  | nil => exact absurd rfl h
  | cons c0 rest =>
    refine ⟨(scanBest (keywordsOf question) (c0 :: rest) (c0, 0)).1, rfl, ?_⟩
    rcases scanBest_fst_mem (keywordsOf question) (c0 :: rest) c0 0 with h1 | h1
    · rw [h1]
      exact List.mem_cons_self c0 rest
    · exact h1

/-- C10 witness: a one-chunk list. -/
theorem find_relevant_chunk_total_mem_witness :
    (["abc"] : List String) ≠ [] ∧
    ∃ c, find_relevant_chunk ["abc"] "hi" = some c ∧ c ∈ (["abc"] : List String) :=
  ⟨by decide, find_relevant_chunk_total_mem ["abc"] "hi" (by decide)⟩

-- Facts about the leftmost-match search.

theorem searchRetry_some_drop (s : List Char) :
    ∀ n, searchRetry s = some n →
      ∃ i, matchRetryAt (List.drop i s) = some n := by
  induction s with
  | nil => intro n h; cases h
  | cons c cs ih =>
    intro n h
    cases hm : matchRetryAt (c :: cs) with
    | some m =>
      have hs : searchRetry (c :: cs) = some m := by
        show (match matchRetryAt (c :: cs) with
          | some n => some n
          | none => searchRetry cs) = some m
        rw [hm]
      rw [hs] at h
      exact ⟨0, by rw [List.drop_zero, hm, h]⟩
    | none =>
      have hs : searchRetry (c :: cs) = searchRetry cs := by
        show (match matchRetryAt (c :: cs) with
          | some n => some n
          | none => searchRetry cs) = searchRetry cs
        rw [hm]
      rw [hs] at h
      obtain ⟨i, hi⟩ := ih n h
      exact ⟨i + 1, by rw [List.drop_succ_cons]; exact hi⟩

theorem searchRetry_none_drop (s : List Char) :
    searchRetry s = none → ∀ i, matchRetryAt (List.drop i s) = none := by
  induction s with
  | nil =>
    intro _ i
    rw [List.drop_nil]
    decide
  | cons c cs ih =>
    intro h i
    have hm : matchRetryAt (c :: cs) = none := by
      cases hm : matchRetryAt (c :: cs) with
      | none => rfl
      | some m =>
        have hs : searchRetry (c :: cs) = some m := by
          show (match matchRetryAt (c :: cs) with
            | some n => some n
            | none => searchRetry cs) = some m
          rw [hm]
        rw [h] at hs
        cases hs
    have hrest : searchRetry cs = none := by
      have hs : searchRetry (c :: cs) = searchRetry cs := by
        show (match matchRetryAt (c :: cs) with
          | some n => some n
          | none => searchRetry cs) = searchRetry cs
        rw [hm]
      rw [hs] at h
      exact h
    cases i with
    | zero => rw [List.drop_zero]; exact hm
    | succ j =>
      rw [List.drop_succ_cons]
      exact ih hrest j

/-- C6: for a quota-flagged error message (lowercase form contains "quota"),
if some position of the message matches the `retry_delay ... seconds: N`
pattern then the handler sleeps the leftmost-matched `N` seconds and
returns `True`; if no position matches, it returns `False` without
sleeping. -/
theorem handle_quota_error_spec (error_message : String)
    (hq : containsQuota error_message = true) :
    ((∃ i n, matchRetryAt (List.drop i error_message.data) = some n) →
      ∃ n, (∃ i, matchRetryAt (List.drop i error_message.data) = some n) ∧
        handle_quota_error error_message =
          { signalsRetry := true, waited := n }) ∧
    ((∀ i, matchRetryAt (List.drop i error_message.data) = none) →
      handle_quota_error error_message =
        { signalsRetry := false, waited := 0 }) := by
  constructor
  · rintro ⟨i, n, hi⟩
    cases hs : searchRetry error_message.data with
    | none =>
      have := searchRetry_none_drop _ hs i
      rw [hi] at this
      cases this
    | some m =>
      refine ⟨m, searchRetry_some_drop _ m hs, ?_⟩
      unfold handle_quota_error
      rw [hs]
  · intro hall
    cases hs : searchRetry error_message.data with
    | none =>
      unfold handle_quota_error
      rw [hs]
    | some m =>
      obtain ⟨j, hj⟩ := searchRetry_some_drop _ m hs
      rw [hall j] at hj
      cases hj

/-- C6 witness: a quota message carrying `retry_delay ... seconds: 7`. -/
theorem handle_quota_error_spec_witness :
    containsQuota "You exceeded your quota. retry_delay \x7b seconds: 7 \x7d" = true ∧
    (((∃ i n, matchRetryAt (List.drop i
        ("You exceeded your quota. retry_delay \x7b seconds: 7 \x7d").data) = some n) →
      ∃ n, (∃ i, matchRetryAt (List.drop i
          ("You exceeded your quota. retry_delay \x7b seconds: 7 \x7d").data) = some n) ∧
        handle_quota_error "You exceeded your quota. retry_delay \x7b seconds: 7 \x7d" =
          { signalsRetry := true, waited := n }) ∧
    ((∀ i, matchRetryAt (List.drop i
        ("You exceeded your quota. retry_delay \x7b seconds: 7 \x7d").data) = none) →
      handle_quota_error "You exceeded your quota. retry_delay \x7b seconds: 7 \x7d" =
        { signalsRetry := false, waited := 0 })) :=
  ⟨by decide,
   handle_quota_error_spec "You exceeded your quota. retry_delay \x7b seconds: 7 \x7d"
     (by decide)⟩

theorem isEmpty_false_of_ne_nil {α : Type} {l : List α} (h : l ≠ []) :
    l.isEmpty = false := by
  cases l with
  | nil => exact absurd rfl h
  | cons a t => rfl

/-- On an initialized chatbot, if every send from attempt `k` on fails with
a quota-flagged error whose handler signals retry, the loop consumes all its
remaining iterations and ends with the max-retries answer, one send per
iteration. -/
theorem ask_loop_all_quota (cb : Chatbot) (send : ℕ → String → SendOutcome)
    (question : String) (hchunks : cb.text_chunks ≠ [])
    (hmodel : cb.modelSet = true) :
    ∀ (n k : ℕ) (rl : RL),
      (∀ j, k ≤ j → j < k + n → ∀ prompt,
        ∃ m, send j prompt = SendOutcome.err m ∧ containsQuota m = true ∧
          (handle_quota_error m).signalsRetry = true) →
      (ask_loop cb send question n rl k).answer = maxRetriesMsg ∧
      (ask_loop cb send question n rl k).sends = k + n := by
  intro n
  induction n with
  | zero => intro k rl _; exact ⟨rfl, rfl⟩
  | succ n ih =>
    intro k rl hsend
    have hcond : (cb.text_chunks.isEmpty || !cb.modelSet) = false := by
      rw [isEmpty_false_of_ne_nil hchunks, hmodel]
      rfl
    obtain ⟨m, hm, hqm, hrm⟩ := hsend k (le_refl k) (by omega)
      (buildPrompt ((find_relevant_chunk cb.text_chunks question).getD "") question)
    have step : ask_loop cb send question (n + 1) rl k =
        ask_loop cb send question n
          { wait_for_rate_limit rl with
            now := (wait_for_rate_limit rl).now +
              ((handle_quota_error m).waited : ℚ) }
          (k + 1) := by
      simp only [ask_loop, hcond, hm, hqm, hrm]
      simp
    rw [step]
    have hrec := ih (k + 1)
      { wait_for_rate_limit rl with
        now := (wait_for_rate_limit rl).now + ((handle_quota_error m).waited : ℚ) }
      (fun j hj1 hj2 prompt => hsend j (by omega) (by omega) prompt)
    exact ⟨hrec.1, by rw [hrec.2]; omega⟩

/-- C7: if every one of the (at most 3) send attempts fails with a
quota-flagged error carrying a parsable retry delay, `ask_question` makes
exactly 3 send attempts and then returns the fixed max-retries message —
it does not raise. -/
theorem ask_question_max_retries (cb : Chatbot)
    (send : ℕ → String → SendOutcome) (question : String) (rl : RL)
    (hchunks : cb.text_chunks ≠ []) (hmodel : cb.modelSet = true)
    (hsend : ∀ k, k < 3 → ∀ prompt,
      ∃ m, send k prompt = SendOutcome.err m ∧ containsQuota m = true ∧
        (handle_quota_error m).signalsRetry = true) :
    (ask_question cb send question rl).answer = maxRetriesMsg ∧
    (ask_question cb send question rl).sends = 3 := by
  have h := ask_loop_all_quota cb send question hchunks hmodel 3 0 rl
    (fun j hj1 hj2 prompt => hsend j (by omega) prompt)
  exact ⟨h.1, h.2⟩

/-- C7 witness: every attempt fails with the same parsable quota error. -/
theorem ask_question_max_retries_witness :
    (Chatbot.mk ["chunk text"] true).text_chunks ≠ [] ∧
    (Chatbot.mk ["chunk text"] true).modelSet = true ∧
    (∀ k, k < 3 → ∀ prompt,
      ∃ m, (fun (_ : ℕ) (_ : String) =>
          SendOutcome.err "quota exceeded retry_delay \x7b seconds: 7 \x7d") k prompt
            = SendOutcome.err m ∧
        containsQuota m = true ∧ (handle_quota_error m).signalsRetry = true) ∧
    (ask_question (Chatbot.mk ["chunk text"] true)
      (fun _ _ => SendOutcome.err "quota exceeded retry_delay \x7b seconds: 7 \x7d")
      "soru" (initState 50)).answer = maxRetriesMsg ∧
    (ask_question (Chatbot.mk ["chunk text"] true)
      (fun _ _ => SendOutcome.err "quota exceeded retry_delay \x7b seconds: 7 \x7d")
      "soru" (initState 50)).sends = 3 := by
  refine ⟨by decide, rfl, fun k _ prompt =>
    ⟨"quota exceeded retry_delay \x7b seconds: 7 \x7d", rfl, by decide, by decide⟩, ?_⟩
  exact ask_question_max_retries (Chatbot.mk ["chunk text"] true)
    (fun _ _ => SendOutcome.err "quota exceeded retry_delay \x7b seconds: 7 \x7d")
    "soru" (initState 50) (by decide) rfl
    (fun k _ prompt =>
      ⟨"quota exceeded retry_delay \x7b seconds: 7 \x7d", rfl, by decide, by decide⟩)

/-- C8 (amended): when the send attempt fails with a non-quota error, or
with a quota-flagged error carrying no parsable retry delay, the loop
returns (it does not raise) the fixed prefix "Hata oluştu: " followed by
the error message verbatim, after exactly that one send. -/
theorem ask_question_error_message (cb : Chatbot)
    (send : ℕ → String → SendOutcome) (question : String)
    (n k : ℕ) (rl : RL) (m : String)
    (hchunks : cb.text_chunks ≠ []) (hmodel : cb.modelSet = true)
    (hm : ∀ prompt, send k prompt = SendOutcome.err m)
    (hfail : containsQuota m = false ∨
      (containsQuota m = true ∧ (handle_quota_error m).signalsRetry = false)) :
    (ask_loop cb send question (n + 1) rl k).answer = errorResultMsg m ∧
    (ask_loop cb send question (n + 1) rl k).sends = k + 1 := by
  have hcond : (cb.text_chunks.isEmpty || !cb.modelSet) = false := by
    rw [isEmpty_false_of_ne_nil hchunks, hmodel]
    rfl
  rcases hfail with hq | ⟨hq, hr⟩
  · constructor <;> (simp only [ask_loop, hcond, hm, hq]; simp)
  · constructor <;> (simp only [ask_loop, hcond, hm, hq, hr]; simp)

/-- C8 witness: a non-quota failure "boom" on the first attempt. -/
theorem ask_question_error_message_witness :
    (Chatbot.mk ["chunk text"] true).text_chunks ≠ [] ∧
    (Chatbot.mk ["chunk text"] true).modelSet = true ∧
    (∀ prompt, (fun (_ : ℕ) (_ : String) => SendOutcome.err "boom") 0 prompt
      = SendOutcome.err "boom") ∧
    containsQuota "boom" = false ∧
    (ask_loop (Chatbot.mk ["chunk text"] true)
      (fun _ _ => SendOutcome.err "boom") "soru" 3 (initState 50) 0).answer
      = errorResultMsg "boom" ∧
    (ask_loop (Chatbot.mk ["chunk text"] true)
      (fun _ _ => SendOutcome.err "boom") "soru" 3 (initState 50) 0).sends
      = 0 + 1 := by
  have h := ask_question_error_message (Chatbot.mk ["chunk text"] true)
    (fun _ _ => SendOutcome.err "boom") "soru" 2 0 (initState 50) "boom"
    (by decide) rfl (fun _ => rfl) (Or.inl (by decide))
  exact ⟨by decide, rfl, fun _ => rfl, by decide, h.1, h.2⟩

/-- C8 counterexample: on a non-quota failure "boom" the returned answer is
"Hata oluştu: boom" — the error message with a fixed prefix, not the error
message verbatim as the claim states. -/
theorem ask_question_error_verbatim_cex :
    (ask_question (Chatbot.mk ["chunk text"] true)
      (fun _ _ => SendOutcome.err "boom") "soru" (initState 50)).answer
      ≠ "boom" ∧
    (ask_question (Chatbot.mk ["chunk text"] true)
      (fun _ _ => SendOutcome.err "boom") "soru" (initState 50)).answer
      = errorResultMsg "boom" := by
  have hq : containsQuota "boom" = false := by decide
  have key : (ask_question (Chatbot.mk ["chunk text"] true)
      (fun _ _ => SendOutcome.err "boom") "soru" (initState 50)).answer
      = errorResultMsg "boom" := by
    show (ask_loop (Chatbot.mk ["chunk text"] true)
      (fun _ _ => SendOutcome.err "boom") "soru" (2 + 1) (initState 50) 0).answer
      = errorResultMsg "boom"
    simp only [ask_loop, hq]
    simp
  refine ⟨?_, key⟩
  rw [key]
  decide

/-- C9: with no chunks loaded or no model set, `ask_question` returns the
fixed initialization-error message immediately and without raising: the
rate-limiter state is returned untouched and no send attempt is made (the
guard on line 175 precedes the rate-limit wait, the chunk selection and the
send). -/
theorem ask_question_uninitialized (cb : Chatbot)
    (send : ℕ → String → SendOutcome) (question : String) (rl : RL)
    (h : cb.text_chunks = [] ∨ cb.modelSet = false) :
    ask_question cb send question rl =
      { answer := initErrorMsg, rl := rl, sends := 0 } := by
  have hcond : (cb.text_chunks.isEmpty || !cb.modelSet) = true := by
    rcases h with h | h
    · rw [h]
      rfl
    · rw [h]
      cases cb.text_chunks.isEmpty <;> rfl
  show ask_loop cb send question (2 + 1) rl 0 =
    { answer := initErrorMsg, rl := rl, sends := 0 }
  simp only [ask_loop, hcond]
  simp

/-- C9 witness: a chatbot whose chunk list is empty. -/
theorem ask_question_uninitialized_witness :
    ((Chatbot.mk [] true).text_chunks = [] ∨
      (Chatbot.mk [] true).modelSet = false) ∧
    ask_question (Chatbot.mk [] true) (fun _ _ => SendOutcome.ok "cevap")
      "soru" (initState 7) =
      { answer := initErrorMsg, rl := initState 7, sends := 0 } :=
  ⟨Or.inl rfl, ask_question_uninitialized (Chatbot.mk [] true)
    (fun _ _ => SendOutcome.ok "cevap") "soru" (initState 7) (Or.inl rfl)⟩
